import Mathlib

/-!
Verification of the TourHero fly-rate dashboard core (src/dashboard.py).

The dashboard is a single pandas/streamlit script.  Its core is:
row parsing (lines 40-46), sidebar filters applied sequentially to the
dataframe (lines 89-98), two unconditional cleaning rules plus the derived
`trip_success` column (lines 101-109), the median/cohort derivations
(lines 119, 220-221), the follower brackets (lines 130-132), the
cohort-by-market percentage table (lines 226-227) and the cumulative
threshold calculator (lines 181-206).

Each dataframe row is embedded as a `Record`; dataframes are lists of
records; every dataframe operation of the script becomes a list
transformation; pandas float arithmetic on the small rate columns is
embedded as exact rational arithmetic over `ℚ`.
-/

/-- One row of the spreadsheet after the load-time conversions of
lines 40-46: `follower_count` coerced to a number (missing → 0),
`published_date` a valid date (rows with missing dates are dropped at
line 68, embedded as an integer day number), `shell` an optional boolean
(the `map` on line 46 leaves unmapped text as missing). -/
structure Record where
  tour_id : String
  tourhero_email : String
  market : String
  published_date : Int
  follower_count : Nat
  shell : Option Bool
  fixed_active_status : String
deriving DecidableEq, Repr

/-- Python's `str.upper` (used on line 46), embedded character-wise. -/
def str_upper (s : String) : String := String.mk (s.data.map Char.toUpper)

/-- Line 46: `df['shell'].astype(str).str.upper().map({'TRUE': True, 'FALSE': False})`.
Text whose upper-casing is neither `TRUE` nor `FALSE` maps to missing. -/
def parse_shell (s : String) : Option Bool :=
  if str_upper s = "TRUE" then some true
  else if str_upper s = "FALSE" then some false
  else none

/-- Lines 104-105: `'Successful' if status in ['done', 'live', 'confirmed'] else 'Cancelled'`. -/
def map_success (status : String) : String :=
  if status ∈ ["done", "live", "confirmed"] then "Successful" else "Cancelled"

/-- Line 77: the three values of the trip-type radio button. -/
inductive ShellFilter where
  | all
  | shellOnly
  | nonShellOnly
deriving DecidableEq, Repr

/-- The sidebar filter state (lines 77-85): trip type, selected markets
(possibly empty), selected date range (the date widget may momentarily
hold fewer than two endpoints, hence a list), and the follower slider. -/
structure FilterConfig where
  shell_filter : ShellFilter
  selected_markets : List String
  selected_date_range : List Int
  follower_min : Nat
  follower_max : Nat
deriving DecidableEq, Repr

/-- Lines 89-98: the four sequential filters.  The shell filter compares the
optional flag against `True`/`False` (a missing flag matches neither); the
market filter is skipped when the selection is empty (`if selected_markets:`);
the date filter is applied only when the range has both endpoints
(`if len(selected_date_range) == 2:`); the follower filter is inclusive. -/
def df_filtered (cfg : FilterConfig) (df : List Record) : List Record :=
  let s1 : List Record :=
    match cfg.shell_filter with
    | ShellFilter.shellOnly => df.filter (fun r => r.shell == some true)
    | ShellFilter.nonShellOnly => df.filter (fun r => r.shell == some false)
    | ShellFilter.all => df
  let s2 : List Record :=
    if cfg.selected_markets.isEmpty then s1
    else s1.filter (fun r => cfg.selected_markets.contains r.market)
  let s3 : List Record :=
    match cfg.selected_date_range with
    | [d0, d1] =>
        s2.filter (fun r => decide (d0 ≤ r.published_date) && decide (r.published_date ≤ d1))
    | _ => s2
  s3.filter (fun r =>
    decide (cfg.follower_min ≤ r.follower_count) && decide (r.follower_count ≤ cfg.follower_max))

/-- Line 102. -/
def allowed_statuses : List String := ["cancelled", "done", "live", "confirmed"]

/-- Lines 101-103: the two unconditional cleaning rules, applied after the
user-selected filters: drop the `mba` market sentinel and keep only the four
allowed statuses. -/
def df_cleaned (cfg : FilterConfig) (df : List Record) : List Record :=
  let c1 := (df_filtered cfg df).filter (fun r => r.market != "mba")
  c1.filter (fun r => allowed_statuses.contains r.fixed_active_status)

/-- Line 109: each cleaned row paired with its derived `trip_success` column. -/
def df_cleaned_success (cfg : FilterConfig) (df : List Record) : List (Record × String) :=
  (df_cleaned cfg df).map (fun r => (r, map_success r.fixed_active_status))

/-- The predicate enforced by the trip-type radio filter (lines 90-93);
`all` applies no filtering. -/
def shell_pred (sf : ShellFilter) (r : Record) : Bool :=
  match sf with
  | ShellFilter.all => true
  | ShellFilter.shellOnly => r.shell == some true
  | ShellFilter.nonShellOnly => r.shell == some false

/-- The predicate enforced by the market multiselect (lines 94-95); an
empty selection filters nothing. -/
def market_pred (ms : List String) (r : Record) : Bool :=
  ms.isEmpty || ms.contains r.market

/-- The predicate enforced by the date-range filter (lines 96-97); it is
inactive unless both endpoints are present. -/
def date_pred (dr : List Int) (r : Record) : Bool :=
  match dr with
  | [d0, d1] => decide (d0 ≤ r.published_date) && decide (r.published_date ≤ d1)
  | _ => true

/-- The predicate enforced by the follower slider (line 98), inclusive on
both ends. -/
def follower_pred (lo hi : Nat) (r : Record) : Bool :=
  decide (lo ≤ r.follower_count) && decide (r.follower_count ≤ hi)

/-- The conjunction of the four filter predicates together with the two
cleaning rules of lines 101-103. -/
def cleaned_pred (cfg : FilterConfig) (r : Record) : Bool :=
  shell_pred cfg.shell_filter r && market_pred cfg.selected_markets r &&
    date_pred cfg.selected_date_range r &&
    follower_pred cfg.follower_min cfg.follower_max r &&
    (r.market != "mba") && allowed_statuses.contains r.fixed_active_status

lemma df_filtered_eq (cfg : FilterConfig) (df : List Record) :
    df_filtered cfg df = df.filter (fun r =>
      shell_pred cfg.shell_filter r && market_pred cfg.selected_markets r &&
        date_pred cfg.selected_date_range r &&
        follower_pred cfg.follower_min cfg.follower_max r) := by
  unfold df_filtered
  cases hsf : cfg.shell_filter <;>
    rcases hdr : cfg.selected_date_range with _ | ⟨d0, _ | ⟨d1, _ | ⟨d2, tl⟩⟩⟩ <;>
    by_cases hm : cfg.selected_markets.isEmpty
  all_goals
    simp [shell_pred, market_pred, date_pred, follower_pred, hm, hdr, List.filter_filter,
      Bool.and_comm, Bool.and_left_comm, Bool.and_assoc]

lemma df_cleaned_eq (cfg : FilterConfig) (df : List Record) :
    df_cleaned cfg df = df.filter (cleaned_pred cfg) := by
  unfold df_cleaned
  rw [df_filtered_eq, List.filter_filter, List.filter_filter]
  refine List.filter_congr (fun r _ => ?_)
  simp [cleaned_pred, Bool.and_comm, Bool.and_left_comm, Bool.and_assoc]

/-- The descending follower-count order used on line 181
(`sort_values('follower_count', ascending=False)`). -/
def recGE (a b : Record) : Prop := b.follower_count ≤ a.follower_count

instance : DecidableRel recGE := fun _ b => Nat.decLe b.follower_count _

instance : IsTotal Record recGE := ⟨fun a b => Nat.le_total b.follower_count a.follower_count⟩

instance : IsTrans Record recGE := ⟨fun _ _ _ h1 h2 => Nat.le_trans h2 h1⟩

/-- Line 181: the cleaned rows sorted by follower count in descending order
(pandas leaves the order of ties unspecified; any descending sort is a
faithful model). -/
def df_threshold_calc (rs : List Record) : List Record := List.insertionSort recGE rs

/-- Lines 183-189 as one top-down walk: each row paired with its
`fly_rate_at_or_above` value `cumulative_successes / cumulative_trips * 100`,
starting from accumulated counts `s` (successes) and `t` (trips). -/
def rates_from (s t : Nat) : List Record → List (Record × ℚ)
  | [] => []
  | r :: rest =>
      let s2 := s + (if map_success r.fixed_active_status = "Successful" then 1 else 0)
      let t2 := t + 1
      (r, (s2 : ℚ) / (t2 : ℚ) * 100) :: rates_from s2 t2 rest

/-- The sorted rows annotated with their cumulative fly rate (lines 181-189). -/
def threshold_rows (rs : List Record) : List (Record × ℚ) :=
  rates_from 0 0 (df_threshold_calc rs)

/-- Line 192: `result_df = df_threshold_calc[df_threshold_calc['fly_rate_at_or_above'] >= target_fly_rate]`. -/
def result_rows (T : ℚ) (rs : List Record) : List (Record × ℚ) :=
  (threshold_rows rs).filter (fun p => decide (T ≤ p.2))

/-- The `fly_rate_at_or_above` column by itself. -/
def rate_column (rs : List Record) : List ℚ := (threshold_rows rs).map (fun p => p.2)

/-- Maximum of a rate series, as `.max()` on a nonempty pandas series; the
empty case is unreachable in the script (guarded by `if not df_threshold_calc.empty`). -/
def series_max : List ℚ → ℚ
  | [] => 0
  | [a] => a
  | a :: b :: t => max a (series_max (b :: t))

/-- Outcome of the threshold calculator (lines 195-206): either the
suggested follower threshold, or the not-reached warning carrying the
maximum achievable rate. -/
inductive ThresholdResult where
  | threshold (f : Nat)
  | notReached (maxRate : ℚ)
deriving DecidableEq, Repr

/-- Lines 195-206: if `result_df` is nonempty the answer is
`result_df['follower_count'].iloc[-1]` (its last row); otherwise the warning
reports `df_threshold_calc['fly_rate_at_or_above'].max()` (0 when the
cleaned set is empty). -/
def suggested_threshold (T : ℚ) (rs : List Record) : ThresholdResult :=
  match (result_rows T rs).getLast? with
  | some p => ThresholdResult.threshold p.1.follower_count
  | none =>
      ThresholdResult.notReached
        (if (df_threshold_calc rs).isEmpty then 0 else series_max (rate_column rs))

lemma suggested_threshold_getLast (T : ℚ) (rs : List Record)
    (hq : result_rows T rs ≠ []) :
    suggested_threshold T rs =
      ThresholdResult.threshold (((result_rows T rs).getLast hq).1.follower_count) := by
  unfold suggested_threshold
  rw [List.getLast?_eq_getLast _ hq]

lemma rates_from_map_fst (l : List Record) : ∀ s t, (rates_from s t l).map Prod.fst = l := by
  induction l with
  | nil => intro s t; rfl
  | cons r rest ih => intro s t; simp [rates_from, ih]

lemma rate_le_100 (s t : Nat) (hst : s ≤ t) (ht : 0 < t) : (s : ℚ) / (t : ℚ) * 100 ≤ 100 := by
  have ht' : (0 : ℚ) < (t : ℚ) := by exact_mod_cast ht
  have hs' : (s : ℚ) ≤ (t : ℚ) := by exact_mod_cast hst
  rw [div_mul_eq_mul_div, div_le_iff₀ ht']
  nlinarith

lemma rates_from_le_100 (l : List Record) :
    ∀ s t, s ≤ t → ∀ p ∈ rates_from s t l, p.2 ≤ 100 := by
  induction l with
  | nil => intro s t _ p hp; simp [rates_from] at hp
  | cons r rest ih =>
      intro s t hst p hp
      have hb : (if map_success r.fixed_active_status = "Successful" then 1 else 0) ≤ 1 := by
        split <;> omega
      simp only [rates_from, List.mem_cons] at hp
      rcases hp with hp | hp
      · subst hp
        exact rate_le_100 _ _ (by omega) (by omega)
      · exact ih _ _ (by omega) p hp

lemma threshold_rows_le_100 (rs : List Record) : ∀ p ∈ threshold_rows rs, p.2 ≤ 100 :=
  rates_from_le_100 _ 0 0 (le_refl 0)

lemma df_threshold_calc_sorted (rs : List Record) :
    List.Pairwise recGE (df_threshold_calc rs) :=
  List.sorted_insertionSort recGE rs

lemma threshold_rows_pairwise (rs : List Record) :
    List.Pairwise (fun p q : Record × ℚ => recGE p.1 q.1) (threshold_rows rs) := by
  have h := df_threshold_calc_sorted rs
  rw [← rates_from_map_fst (df_threshold_calc rs) 0 0] at h
  exact List.pairwise_map.mp h

lemma pairwise_getLast_min {α : Type} (g : α → Nat) :
    ∀ (l : List α), List.Pairwise (fun a b => g b ≤ g a) l →
      ∀ (h : l ≠ []) (a : α), a ∈ l → g (l.getLast h) ≤ g a := by
  intro l
  induction l with
  | nil => intro _ h; exact absurd rfl h
  | cons x xs ih =>
      intro hp h a ha
      rcases List.pairwise_cons.mp hp with ⟨hx, hxs⟩
      cases xs with
      | nil =>
          rcases List.mem_singleton.mp ha with rfl
          exact le_refl _
      | cons y ys =>
          have hne : (y :: ys) ≠ [] := List.cons_ne_nil _ _
          have hgl : (x :: y :: ys).getLast h = (y :: ys).getLast hne := rfl
          rw [hgl]
          rcases List.mem_cons.mp ha with rfl | ha2
          · exact hx _ (List.getLast_mem hne)
          · exact ih hxs hne _ ha2

lemma le_series_max : ∀ (l : List ℚ) (a : ℚ), a ∈ l → a ≤ series_max l := by
  intro l
  induction l with
  | nil => intro a ha; simp at ha
  | cons x xs ih =>
      intro a ha
      cases hxs : xs with
      | nil =>
          subst hxs
          rcases List.mem_singleton.mp ha with rfl
          simp [series_max]
      | cons y ys =>
          subst hxs
          rcases List.mem_cons.mp ha with rfl | ha2
          · exact le_max_left _ _
          · exact le_trans (ih a ha2) (le_max_right _ _)

lemma series_max_mem : ∀ (l : List ℚ), l ≠ [] → series_max l ∈ l := by
  intro l
  induction l with
  | nil => intro h; exact absurd rfl h
  | cons x xs ih =>
      intro _
      cases hxs : xs with
      | nil => subst hxs; simp [series_max]
      | cons y ys =>
          subst hxs
          rcases max_choice x (series_max (y :: ys)) with hc | hc
      
          · simp [series_max, hc]
          · simp only [series_max, hc]
            exact List.mem_cons_of_mem _ (ih (List.cons_ne_nil _ _))

lemma rates_from_length (l : List Record) : ∀ s t, (rates_from s t l).length = l.length := by
  induction l with
  | nil => intro s t; rfl
  | cons r rest ih => intro s t; simp [rates_from, ih]

lemma df_threshold_calc_nil_iff (rs : List Record) : df_threshold_calc rs = [] ↔ rs = [] := by
  constructor
  · intro h
    have hp := List.perm_insertionSort recGE rs
    rw [show List.insertionSort recGE rs = df_threshold_calc rs from rfl, h] at hp
    exact hp.symm.eq_nil
  · intro h; subst h; rfl

lemma rate_column_nil_iff (rs : List Record) : rate_column rs = [] ↔ rs = [] := by
  rw [← df_threshold_calc_nil_iff]
  unfold rate_column threshold_rows
  constructor
  · intro h
    have := congrArg List.length h
    simp [rates_from_length] at this
    exact this
  · intro h; rw [h]; rfl

/-- Line 119: `df_cleaned['follower_count'].median()` — the pandas median of
the follower counts: middle element of the sorted values for odd length, the
mean of the two middle elements for even length (the empty case is
unreachable in the script: the empty check on line 106 stops first). -/
def median_followers (l : List Record) : ℚ :=
  let s := List.insertionSort (fun a b : Nat => a ≤ b) (l.map (fun r => r.follower_count))
  let n := s.length
  if n = 0 then 0
  else if n % 2 = 1 then (s.getD (n / 2) 0 : ℚ)
  else ((s.getD (n / 2 - 1) 0 : ℚ) + (s.getD (n / 2) 0 : ℚ)) / 2

/-- Line 220: `'High Followers' if x >= median_followers else 'Low Followers'`,
with `med` the median of the currently filtered set. -/
def follower_level (med : ℚ) (r : Record) : String :=
  if med ≤ (r.follower_count : ℚ) then "High Followers" else "Low Followers"

/-- Line 221: `df_cleaned['follower_level'] + " | " + df_cleaned['trip_success']`. -/
def cohort_col (med : ℚ) (r : Record) : String :=
  follower_level med r ++ " | " ++ map_success r.fixed_active_status

/-- The cohort of a record relative to a cleaned set `l` (lines 119 and
220-221: the median is recomputed from `l` itself). -/
def cohortOf (l : List Record) (r : Record) : String :=
  cohort_col (median_followers l) r

/-- Lines 130-132: `pd.cut(follower_count, bins=[0, 5000, 20000, 50000,
100000, 500000, inf], labels=..., right=False)` — six half-open buckets,
closed on the left. -/
def follower_bin (x : Nat) : String :=
  if x < 5000 then "0-5k"
  else if x < 20000 then "5k-20k"
  else if x < 50000 then "20k-50k"
  else if x < 100000 then "50k-100k"
  else if x < 500000 then "100k-500k"
  else "500k+"

/-- The distinct cohort values observed in the cleaned set: the row index of
`groupby(['cohort', 'market_-_cleaned']).size().unstack(fill_value=0)`
(line 226) — a cohort with no record produces no row. -/
def cohort_values (l : List Record) : List String :=
  (l.map (fun r => cohortOf l r)).dedup

/-- The distinct markets observed in the cleaned set: the column index of the
unstacked table on line 226. -/
def market_values (l : List Record) : List String :=
  (l.map (fun r => r.market)).dedup

/-- The number of cleaned records in cohort `c` (the size of that cohort's
group). -/
def cohort_count (l : List Record) (c : String) : Nat :=
  (l.filter (fun r => cohortOf l r == c)).length

/-- One cell of the line-226 table: the number of cleaned records in cohort
`c` with market `m`. -/
def cohort_market_count (l : List Record) (c m : String) : Nat :=
  (l.filter (fun r => cohortOf l r == c && r.market == m)).length

/-- The row sum `x.sum()` over which line 227 normalises cohort `c`. -/
def cohort_row_sum (l : List Record) (c : String) : Nat :=
  ((market_values l).map (fun m => cohort_market_count l c m)).sum

/-- Line 227: `x / x.sum() * 100` — the percentage of cohort `c` held by
market `m`. -/
def cohort_market_percent (l : List Record) (c m : String) : ℚ :=
  (cohort_market_count l c m : ℚ) / (cohort_row_sum l c : ℚ) * 100

lemma sum_map_add_nat (ms : List String) (f g : String → Nat) :
    (ms.map (fun m => f m + g m)).sum = (ms.map f).sum + (ms.map g).sum := by
  induction ms with
  | nil => rfl
  | cons a t ih => simp [ih]; omega

lemma sum_indicator_zero (ms : List String) (x : String) (hx : x ∉ ms) :
    (ms.map (fun m => if x = m then (1 : Nat) else 0)).sum = 0 := by
  induction ms with
  | nil => rfl
  | cons a t ih =>
      have hxa : ¬(x = a) := fun h => hx (h ▸ List.mem_cons_self a t)
      have hxt : x ∉ t := fun h => hx (List.mem_cons_of_mem a h)
      simp [hxa, ih hxt]

lemma sum_indicator_one (ms : List String) (x : String) (hnd : ms.Nodup) (hx : x ∈ ms) :
    (ms.map (fun m => if x = m then (1 : Nat) else 0)).sum = 1 := by
  induction ms with
  | nil => simp at hx
  | cons a t ih =>
      rcases List.nodup_cons.mp hnd with ⟨hat, hndt⟩
      rcases List.mem_cons.mp hx with rfl | hxt
      · simp [sum_indicator_zero t x hat]
      · have hxa : ¬(x = a) := fun h => hat (h ▸ hxt)
        simp [hxa, ih hndt hxt]

lemma sum_market_filter (ms : List String) (hnd : ms.Nodup) :
    ∀ (l : List Record), (∀ r ∈ l, r.market ∈ ms) →
      ((ms.map (fun m => (l.filter (fun r => r.market == m)).length)).sum = l.length) := by
  intro l
  induction l with
  | nil => intro _; simp
  | cons r rest ih =>
      intro hcov
      have hcell : ∀ m ∈ ms,
          ((r :: rest).filter (fun r2 => r2.market == m)).length =
            (if r.market = m then (1 : Nat) else 0) +
              (rest.filter (fun r2 => r2.market == m)).length := by
        intro m _
        by_cases hrm : r.market = m
        · simp [List.filter_cons, hrm]; omega
        · simp [List.filter_cons, hrm]
      rw [List.map_congr_left hcell, sum_map_add_nat,
        sum_indicator_one ms r.market hnd (hcov r (List.mem_cons_self r rest)),
        ih (fun r2 h2 => hcov r2 (List.mem_cons_of_mem r h2))]
      simp [Nat.add_comm]

lemma cohort_row_sum_eq (l : List Record) (c : String) :
    cohort_row_sum l c = cohort_count l c := by
  unfold cohort_row_sum cohort_count cohort_market_count
  have hcell : ∀ m ∈ market_values l,
      (l.filter (fun r => cohortOf l r == c && r.market == m)).length =
        (((l.filter (fun r => cohortOf l r == c)).filter (fun r => r.market == m)).length) := by
    intro m _
    rw [List.filter_filter]
    congr 1
    exact List.filter_congr (fun r _ => by
      cases h1 : (cohortOf l r == c) <;> cases h2 : (r.market == m) <;> simp [h1, h2])
  rw [List.map_congr_left hcell]
  exact sum_market_filter (market_values l) (List.nodup_dedup _)
    (l.filter (fun r => cohortOf l r == c))
    (fun r hr => by
      have hrl : r ∈ l := (List.mem_filter.mp hr).1
      exact List.mem_dedup.mpr (List.mem_map.mpr ⟨r, hrl, rfl⟩))

lemma sum_map_cast_rat (ms : List String) (f : String → Nat) :
    (ms.map (fun m => ((f m : ℚ)))).sum = (((ms.map f).sum : Nat) : ℚ) := by
  induction ms with
  | nil => simp
  | cons a t ih => simp [ih]

lemma sum_map_div_mul (ms : List String) (f : String → ℚ) (d : ℚ) :
    (ms.map (fun m => f m / d * 100)).sum = (ms.map f).sum / d * 100 := by
  induction ms with
  | nil => simp
  | cons a t ih =>
      simp only [List.map_cons, List.sum_cons, ih]
      ring

/-- A sample trip record with the given follower count and status; the
other columns are fixed harmless values. -/
def exRec (f : Nat) (st : String) : Record :=
  { tour_id := "t", tourhero_email := "h@x", market := "us", published_date := 0,
    follower_count := f, shell := some false, fixed_active_status := st }

/-- The worked example of the spec: successes `[S, S, C, S]` at follower
counts `[90, 80, 70, 60]`. -/
def ex1 : List Record :=
  [exRec 90 "done", exRec 80 "done", exRec 70 "cancelled", exRec 60 "done"]

/-- Two successful records at 90 and 80 followers: every cumulative rate is
exactly 100. -/
def exC2 : List Record := [exRec 90 "done", exRec 80 "done"]

/-- A cancelled record above a successful one: cumulative rates 0 then 50,
so a target of 80 is unattainable. -/
def ex3 : List Record := [exRec 70 "cancelled", exRec 60 "done"]

/-- The spec sentence for claim C2 taken literally, for comparison with the
code: the highest follower count among records whose cumulative
rate-at-or-above is exactly 100. -/
def c2_spec_highest (rs : List Record) : Option Nat :=
  (((threshold_rows rs).filter (fun p => decide (p.2 = 100))).map
    (fun p => p.1.follower_count)).max?

/-- A record whose raw shell cell reads `yes`: mapped to a missing flag. -/
def exNoShell : Record :=
  { tour_id := "t", tourhero_email := "h@x", market := "us", published_date := 0,
    follower_count := 50, shell := parse_shell "yes", fixed_active_status := "done" }

/-- A permissive filter configuration selecting all trips. -/
def cfgAll : FilterConfig :=
  { shell_filter := ShellFilter.all, selected_markets := [], selected_date_range := [],
    follower_min := 0, follower_max := 100 }

/-- The same configuration restricted to shell trips. -/
def cfgShellOnly : FilterConfig :=
  { shell_filter := ShellFilter.shellOnly, selected_markets := [], selected_date_range := [],
    follower_min := 0, follower_max := 100 }

/-- The same configuration restricted to non-shell trips. -/
def cfgNonShellOnly : FilterConfig :=
  { shell_filter := ShellFilter.nonShellOnly, selected_markets := [], selected_date_range := [],
    follower_min := 0, follower_max := 100 }

/-- A successful record with few followers. -/
def recLow : Record :=
  { tour_id := "t1", tourhero_email := "low@x", market := "us", published_date := 0,
    follower_count := 10, shell := some false, fixed_active_status := "done" }

/-- A successful record with many followers. -/
def recHigh : Record :=
  { tour_id := "t2", tourhero_email := "high@x", market := "us", published_date := 0,
    follower_count := 100, shell := some false, fixed_active_status := "done" }

/-- A two-record set on which the filtered median moves when the follower
slider moves. -/
def rsC7 : List Record := [recLow, recHigh]

/-- A wide follower range keeping both records of `rsC7`. -/
def cfg7a : FilterConfig :=
  { shell_filter := ShellFilter.all, selected_markets := [], selected_date_range := [],
    follower_min := 0, follower_max := 1000 }

/-- A narrow follower range keeping only the low-follower record of `rsC7`. -/
def cfg7b : FilterConfig :=
  { shell_filter := ShellFilter.all, selected_markets := [], selected_date_range := [],
    follower_min := 0, follower_max := 10 }

/-- A one-record cleaned set for evaluating the cohort-by-market table. -/
def ex8 : List Record := [exRec 90 "done"]

/-- C1: for every cleaned record set and target rate T in [1, 100], if at
least one prefix of the descending-sorted sequence has cumulative
rate-at-or-above ≥ T, the reported threshold is the follower count of the
last (smallest-follower-count) row among all rows whose rate-at-or-above
is ≥ T. -/
theorem spec_c1_threshold_last_qualifying (T : ℚ) (rs : List Record)
    (_hT1 : 1 ≤ T) (_hT2 : T ≤ 100) (hq : result_rows T rs ≠ []) :
    suggested_threshold T rs =
      ThresholdResult.threshold (((result_rows T rs).getLast hq).1.follower_count) :=
  suggested_threshold_getLast T rs hq

/-- Witness for C1, the spec's own worked example: successes `[S, S, C, S]`
at counts `[90, 80, 70, 60]` and T = 70 give threshold 60. -/
theorem spec_c1_witness :
    (1 : ℚ) ≤ 70 ∧ (70 : ℚ) ≤ 100 ∧ result_rows 70 ex1 ≠ [] ∧
      suggested_threshold 70 ex1 = ThresholdResult.threshold 60 := by
  have hEval : result_rows 70 ex1 =
      [(exRec 90 "done", 100), (exRec 80 "done", 100), (exRec 60 "done", 75)] := by
    simp [result_rows, threshold_rows, df_threshold_calc, rates_from, ex1, exRec, map_success,
      List.insertionSort, List.orderedInsert, recGE]
    norm_num
  have hNe : result_rows 70 ex1 ≠ [] := by rw [hEval]; exact List.cons_ne_nil _ _
  have hL : (result_rows 70 ex1).getLast hNe = (exRec 60 "done", 75) :=
    Option.some_injective _ (((List.getLast?_eq_getLast _ hNe).symm).trans
      (by rw [hEval]; rfl))
  refine ⟨by norm_num, by norm_num, hNe, ?_⟩
  rw [spec_c1_threshold_last_qualifying 70 ex1 (by norm_num) (by norm_num) hNe, hL]
  rfl

/-- C3: when no prefix reaches the target rate, the calculator reports the
not-reached outcome carrying the maximum rate-at-or-above over all prefixes
(an upper bound of the rate column, attained whenever the set is
nonempty). -/
theorem spec_c3_not_reached (T : ℚ) (rs : List Record) (hq : result_rows T rs = []) :
    suggested_threshold T rs = ThresholdResult.notReached (series_max (rate_column rs)) ∧
      (∀ q ∈ rate_column rs, q ≤ series_max (rate_column rs)) ∧
      (rs ≠ [] → series_max (rate_column rs) ∈ rate_column rs) := by
  refine ⟨?_, fun q hq2 => le_series_max _ q hq2,
    fun hne => series_max_mem _ (fun h => hne ((rate_column_nil_iff rs).mp h))⟩
  unfold suggested_threshold
  rw [hq]
  by_cases he : (df_threshold_calc rs).isEmpty
  · have hrs : rs = [] := (df_threshold_calc_nil_iff rs).mp (List.isEmpty_iff.mp he)
    have hrc : rate_column rs = [] := (rate_column_nil_iff rs).mpr hrs
    simp [he, hrc, series_max]
  · simp [he]

/-- Witness for C3: a cancelled trip at 70 followers above a successful one
at 60 yields rates `[0, 50]`; a target of 80 is unattainable and the maximum
achievable rate 50 is reported. -/
theorem spec_c3_witness :
    result_rows 80 ex3 = [] ∧
      suggested_threshold 80 ex3 = ThresholdResult.notReached (series_max (rate_column ex3)) ∧
      series_max (rate_column ex3) = 50 := by
  have h0 : result_rows 80 ex3 = [] := by
    simp [result_rows, threshold_rows, df_threshold_calc, rates_from, ex3, exRec, map_success,
      List.insertionSort, List.orderedInsert, recGE]
    norm_num
  refine ⟨h0, (spec_c3_not_reached 80 ex3 h0).1, ?_⟩
  simp [rate_column, threshold_rows, df_threshold_calc, rates_from, ex3, exRec, map_success,
    List.insertionSort, List.orderedInsert, recGE, series_max]
  norm_num

lemma result_rows_100_eq (rs : List Record) :
    result_rows 100 rs = (threshold_rows rs).filter (fun p => decide (p.2 = 100)) := by
  unfold result_rows
  refine List.filter_congr (fun p hp => ?_)
  have h100 := threshold_rows_le_100 rs p hp
  by_cases h : p.2 = 100
  · simp [h]
  · have hlt : ¬((100 : ℚ) ≤ p.2) := fun hle => h (le_antisymm h100 hle)
    simp [h, hlt]

lemma result_rows_pairwise (T : ℚ) (rs : List Record) :
    List.Pairwise (fun p q : Record × ℚ => q.1.follower_count ≤ p.1.follower_count)
      (result_rows T rs) :=
  List.Pairwise.filter _ (threshold_rows_pairwise rs)

/-- C2 counterexample: with two successful records at 90 and 80 followers
every cumulative rate is exactly 100, the spec sentence asks for the highest
such follower count (90), but the code reports the last qualifying row, 80. -/
theorem spec_c2_counterexample :
    suggested_threshold 100 exC2 = ThresholdResult.threshold 80 ∧
      c2_spec_highest exC2 = some 90 ∧
      ThresholdResult.threshold 80 ≠ ThresholdResult.threshold 90 := by
  refine ⟨?_, ?_, by decide⟩
  · simp [suggested_threshold, result_rows, threshold_rows, df_threshold_calc, rates_from,
      exC2, exRec, map_success, List.insertionSort, List.orderedInsert, recGE]
  · simp [c2_spec_highest, threshold_rows, df_threshold_calc, rates_from, exC2, exRec,
      map_success, List.insertionSort, List.orderedInsert, recGE, List.max?]

/-- C2 (amended): for target T = 100 on a set where some prefix qualifies,
the qualifying rows are exactly those whose prefix rate is 100, and the
result is the follower count of the last of them — the LOWEST follower
count among records whose prefix-at-or-above rate is exactly 100% (not the
highest). -/
theorem spec_c2_amended (rs : List Record) (hq : result_rows 100 rs ≠ []) :
    result_rows 100 rs = (threshold_rows rs).filter (fun p => decide (p.2 = 100)) ∧
      suggested_threshold 100 rs =
        ThresholdResult.threshold (((result_rows 100 rs).getLast hq).1.follower_count) ∧
      ∀ p ∈ (threshold_rows rs).filter (fun p => decide (p.2 = 100)),
        (((result_rows 100 rs).getLast hq).1.follower_count) ≤ p.1.follower_count := by
  refine ⟨result_rows_100_eq rs, suggested_threshold_getLast 100 rs hq, fun p hp => ?_⟩
  have hp2 : p ∈ result_rows 100 rs := by rw [result_rows_100_eq rs]; exact hp
  exact pairwise_getLast_min (fun p : Record × ℚ => p.1.follower_count) _
    (result_rows_pairwise 100 rs) hq p hp2

/-- Witness for the amended C2 at the two-success example: the result is 80,
the lowest follower count among the all-success rows. -/
theorem spec_c2_witness :
    result_rows 100 exC2 ≠ [] ∧ suggested_threshold 100 exC2 = ThresholdResult.threshold 80 := by
  have hEval : result_rows 100 exC2 = [(exRec 90 "done", 100), (exRec 80 "done", 100)] := by
    simp [result_rows, threshold_rows, df_threshold_calc, rates_from, exC2, exRec, map_success,
      List.insertionSort, List.orderedInsert, recGE]
  have hNe : result_rows 100 exC2 ≠ [] := by rw [hEval]; exact List.cons_ne_nil _ _
  have hL : (result_rows 100 exC2).getLast hNe = (exRec 80 "done", 100) :=
    Option.some_injective _ (((List.getLast?_eq_getLast _ hNe).symm).trans
      (by rw [hEval]; rfl))
  refine ⟨hNe, ?_⟩
  rw [(spec_c2_amended exC2 hNe).2.1, hL]
  rfl

/-- C4: for every record set and filter configuration, the filtered output
is exactly the records satisfying the conjunction of the active predicates
(shell, market membership, inclusive date range, inclusive follower range),
and an empty market selection applies no market filtering at all. -/
theorem spec_c4_filter_conjunction :
    (∀ (cfg : FilterConfig) (df : List Record),
      df_filtered cfg df = df.filter (fun r =>
        shell_pred cfg.shell_filter r && market_pred cfg.selected_markets r &&
          date_pred cfg.selected_date_range r &&
          follower_pred cfg.follower_min cfg.follower_max r)) ∧
      ∀ r : Record, market_pred [] r = true :=
  ⟨df_filtered_eq, fun _ => rfl⟩

/-- C5: every record of the cleaned set has a market other than `mba`, one
of the four allowed statuses, and exactly one derived trip_success value:
`Successful` when the status is done, live or confirmed, `Cancelled`
otherwise. -/
theorem spec_c5_cleaned_invariants (cfg : FilterConfig) (df : List Record) :
    ∀ p ∈ df_cleaned_success cfg df,
      p.1.market ≠ "mba" ∧ p.1.fixed_active_status ∈ allowed_statuses ∧
        p.2 = (if p.1.fixed_active_status ∈ ["done", "live", "confirmed"]
          then "Successful" else "Cancelled") := by
  intro p hp
  rcases List.mem_map.mp hp with ⟨r, hr, rfl⟩
  rw [df_cleaned_eq] at hr
  rcases List.mem_filter.mp hr with ⟨_, hpred⟩
  unfold cleaned_pred at hpred
  simp only [Bool.and_eq_true] at hpred
  refine ⟨?_, ?_, rfl⟩
  · simpa using hpred.1.2
  · simpa using hpred.2

/-- Witness for C5: a concrete cleaned record of a concrete set satisfies
the three invariants. -/
theorem spec_c5_witness :
    (exRec 90 "done", "Successful") ∈ df_cleaned_success cfgAll ex8 ∧
      (exRec 90 "done").market ≠ "mba" ∧
      (exRec 90 "done").fixed_active_status ∈ allowed_statuses ∧
      "Successful" = (if (exRec 90 "done").fixed_active_status ∈ ["done", "live", "confirmed"]
        then "Successful" else "Cancelled") := by
  have hmem : (exRec 90 "done", "Successful") ∈ df_cleaned_success cfgAll ex8 := by
    simp [df_cleaned_success, df_cleaned, df_filtered, cfgAll, ex8, exRec, map_success,
      allowed_statuses]
  have h := spec_c5_cleaned_invariants cfgAll ex8 (exRec 90 "done", "Successful") hmem
  exact ⟨hmem, h.1, h.2.1, h.2.2⟩

/-- C6: for every record set and filter configuration, the
filtered-and-cleaned result is a sublist (hence a subset) of the input, and
applying the same configuration again to its own output leaves it
unchanged. -/
theorem spec_c6_subset_idempotent (cfg : FilterConfig) (df : List Record) :
    (df_cleaned cfg df).Sublist df ∧
      df_cleaned cfg (df_cleaned cfg df) = df_cleaned cfg df := by
  constructor
  · rw [df_cleaned_eq]
    exact List.filter_sublist df
  · rw [df_cleaned_eq cfg df, df_cleaned_eq cfg (df.filter (cleaned_pred cfg)),
      List.filter_filter]
    exact List.filter_congr (fun r _ => by cases h : cleaned_pred cfg r <;> simp [h])

/-- C7: each record's cohort is the follower-level label (High Followers
when its count is at least the median of the current cleaned set, Low
Followers otherwise) joined with its trip_success — at most four values —
and the median is recomputed per filter application, so a record's cohort
can change when the filters change (shown on a concrete set where
narrowing the follower slider moves the median). -/
theorem spec_c7_cohorts (l : List Record) (r : Record) (_hmem : r ∈ l) :
    cohortOf l r =
        follower_level (median_followers l) r ++ " | " ++ map_success r.fixed_active_status ∧
      follower_level (median_followers l) r =
        (if median_followers l ≤ (r.follower_count : ℚ) then "High Followers"
          else "Low Followers") ∧
      cohortOf l r ∈ ["High Followers | Successful", "High Followers | Cancelled",
        "Low Followers | Successful", "Low Followers | Cancelled"] ∧
      cohortOf (df_cleaned cfg7a rsC7) recLow = "Low Followers | Successful" ∧
      cohortOf (df_cleaned cfg7b rsC7) recLow = "High Followers | Successful" := by
  refine ⟨rfl, rfl, ?_, ?_, ?_⟩
  · unfold cohortOf cohort_col follower_level map_success
    split_ifs <;> simp
  · have hclean : df_cleaned cfg7a rsC7 = [recLow, recHigh] := by
      simp [df_cleaned, df_filtered, cfg7a, rsC7, recLow, recHigh, allowed_statuses]
    rw [hclean]
    have hmed : median_followers [recLow, recHigh] = 55 := by
      simp [median_followers, List.insertionSort, List.orderedInsert, recLow, recHigh]
      norm_num
    unfold cohortOf cohort_col follower_level map_success
    rw [hmed]
    norm_num [recLow]
    decide
  · have hclean : df_cleaned cfg7b rsC7 = [recLow] := by
      simp [df_cleaned, df_filtered, cfg7b, rsC7, recLow, recHigh, allowed_statuses]
    rw [hclean]
    have hmed : median_followers [recLow] = 10 := by
      simp [median_followers, List.insertionSort, List.orderedInsert, recLow]
    unfold cohortOf cohort_col follower_level map_success
    rw [hmed]
    norm_num [recLow]
    decide

/-- Witness for C7 at a concrete member of a concrete set. -/
theorem spec_c7_witness :
    recLow ∈ rsC7 ∧
      cohortOf rsC7 recLow ∈ ["High Followers | Successful", "High Followers | Cancelled",
        "Low Followers | Successful", "Low Followers | Cancelled"] := by
  have hmem : recLow ∈ rsC7 := by simp [rsC7]
  exact ⟨hmem, (spec_c7_cohorts rsC7 recLow hmem).2.2.1⟩

/-- C8: in the cohort-by-market table, the rows are exactly the cohorts
holding at least one record (an empty cohort produces no row, so no
division by zero occurs), and each row's per-market percentages sum to
exactly 100. -/
theorem spec_c8_percentages (l : List Record) (c : String) :
    (c ∈ cohort_values l ↔ 0 < cohort_count l c) ∧
      (c ∈ cohort_values l →
        ((market_values l).map (fun m => cohort_market_percent l c m)).sum = 100) := by
  have hiff : c ∈ cohort_values l ↔ 0 < cohort_count l c := by
    unfold cohort_values cohort_count
    rw [List.mem_dedup]
    constructor
    · intro hc
      rcases List.mem_map.mp hc with ⟨r, hr, hcr⟩
      have hmem : r ∈ l.filter (fun r => cohortOf l r == c) :=
        List.mem_filter.mpr ⟨hr, by simp [hcr]⟩
      exact List.length_pos.mpr (List.ne_nil_of_mem hmem)
    · intro hpos
      have hne : l.filter (fun r => cohortOf l r == c) ≠ [] := List.length_pos.mp hpos
      obtain ⟨r, hr⟩ := List.exists_mem_of_ne_nil _ hne
      rcases List.mem_filter.mp hr with ⟨hrl, hrc⟩
      exact List.mem_map.mpr ⟨r, hrl, by simpa using hrc⟩
  refine ⟨hiff, fun hc => ?_⟩
  have hpos : 0 < cohort_count l c := hiff.mp hc
  have hd0 : cohort_row_sum l c ≠ 0 := by rw [cohort_row_sum_eq]; omega
  have hdq : ((cohort_row_sum l c : Nat) : ℚ) ≠ 0 := Nat.cast_ne_zero.mpr hd0
  unfold cohort_market_percent
  rw [sum_map_div_mul (market_values l) (fun m => (cohort_market_count l c m : ℚ))
      ((cohort_row_sum l c : Nat) : ℚ),
    sum_map_cast_rat (market_values l) (fun m => cohort_market_count l c m)]
  rw [show ((market_values l).map (fun m => cohort_market_count l c m)).sum =
      cohort_row_sum l c from rfl]
  rw [div_self hdq]
  norm_num

/-- Witness for C8 on a one-record cleaned set: its single cohort is a row
and the row sums to 100. -/
theorem spec_c8_witness :
    "High Followers | Successful" ∈ cohort_values ex8 ∧
      ((market_values ex8).map
        (fun m => cohort_market_percent ex8 "High Followers | Successful" m)).sum = 100 := by
  have hc : "High Followers | Successful" ∈ cohort_values ex8 := by
    have hco : cohortOf [exRec 90 "done"] (exRec 90 "done") = "High Followers | Successful" := by
      unfold cohortOf cohort_col follower_level map_success
      have hmed : median_followers [exRec 90 "done"] = 90 := by
        simp [median_followers, List.insertionSort, List.orderedInsert, ex8, exRec]
      rw [hmed]
      norm_num [exRec]
      decide
    simp [cohort_values, ex8, hco]
  exact ⟨hc, (spec_c8_percentages ex8 "High Followers | Successful").2 hc⟩

/-- C9: the six follower brackets are half-open, closed on the left: each
count falls in exactly the bucket whose interval contains it, and a count
of exactly 5000 falls in `5k-20k`, not `0-5k`. -/
theorem spec_c9_brackets (x : Nat) :
    (follower_bin x = "0-5k" ↔ x < 5000) ∧
      (follower_bin x = "5k-20k" ↔ 5000 ≤ x ∧ x < 20000) ∧
      (follower_bin x = "20k-50k" ↔ 20000 ≤ x ∧ x < 50000) ∧
      (follower_bin x = "50k-100k" ↔ 50000 ≤ x ∧ x < 100000) ∧
      (follower_bin x = "100k-500k" ↔ 100000 ≤ x ∧ x < 500000) ∧
      (follower_bin x = "500k+" ↔ 500000 ≤ x) ∧
      follower_bin 5000 = "5k-20k" ∧ follower_bin 5000 ≠ "0-5k" := by
  unfold follower_bin
  split_ifs <;> simp_all <;> omega

/-- C10: a shell cell whose text is not TRUE or FALSE case-insensitively
maps to a missing flag; such a row passes the All filter but is excluded by
both ShellOnly and NonShellOnly, so those two outputs need not partition
the All output (shown on a concrete row whose shell cell reads `yes`). -/
theorem spec_c10_shell_missing :
    (∀ s : String, str_upper s ≠ "TRUE" → str_upper s ≠ "FALSE" → parse_shell s = none) ∧
      (∀ r : Record, r.shell = none →
        shell_pred ShellFilter.all r = true ∧
          shell_pred ShellFilter.shellOnly r = false ∧
          shell_pred ShellFilter.nonShellOnly r = false) ∧
      df_filtered cfgAll [exNoShell] = [exNoShell] ∧
      df_filtered cfgShellOnly [exNoShell] = [] ∧
      df_filtered cfgNonShellOnly [exNoShell] = [] := by
  refine ⟨fun s h1 h2 => ?_, fun r hr => ?_, ?_, ?_, ?_⟩
  · unfold parse_shell
    rw [if_neg h1, if_neg h2]
  · exact ⟨rfl, by simp [shell_pred, hr], by simp [shell_pred, hr]⟩
  · simp [df_filtered, cfgAll, exNoShell]
  · simp [df_filtered, cfgShellOnly, exNoShell, parse_shell]
    decide
  · simp [df_filtered, cfgNonShellOnly, exNoShell, parse_shell]
    decide

/-- Witness for C10 at the text `yes`. -/
theorem spec_c10_witness :
    str_upper "yes" ≠ "TRUE" ∧ str_upper "yes" ≠ "FALSE" ∧ parse_shell "yes" = none := by
  have h1 : str_upper "yes" ≠ "TRUE" := by decide
  have h2 : str_upper "yes" ≠ "FALSE" := by decide
  exact ⟨h1, h2, spec_c10_shell_missing.1 "yes" h1 h2⟩
